import Mathlib

/-!
# Verification of the ECR repository reconciliation core

A shallow embedding of the `pkg/resource/repository` package of the
aws-controllers-k8s ecr-controller repository.  Go pointer types (`*string`,
`*bool`, …) are embedded as `Option`; in-place mutation of the Kubernetes
object `ko` becomes functional record update; the ECR SDK client becomes an
explicit oracle mapping each request to either a success payload or an error,
and each manager method additionally returns the list of remote calls it
issued, in order.
-/

namespace Ecr

/-- Tag from `apis/v1alpha1` (Go: `Key *string`, `Value *string`). -/
structure Tag where
  key : Option String := none
  value : Option String := none
deriving Repr, DecidableEq

/-- Spec-side image scanning configuration (`ScanOnPush *bool`). -/
structure ImageScanningConfiguration where
  scanOnPush : Option Bool := none
deriving Repr, DecidableEq

/-- Spec-side encryption configuration. -/
structure EncryptionConfiguration where
  encryptionType : Option String := none
  kmsKey : Option String := none
deriving Repr, DecidableEq

/-- `RepositorySpec` of the custom resource.  It carries both the `Name`
field (the renamed primary key used by the hook code) and the
`RepositoryName` field used by the generated `sdk.go`. -/
structure RepositorySpec where
  encryptionConfiguration : Option EncryptionConfiguration := none
  imageScanningConfiguration : Option ImageScanningConfiguration := none
  imageTagMutability : Option String := none
  lifecyclePolicy : Option String := none
  name : Option String := none
  policy : Option String := none
  registryID : Option String := none
  repositoryName : Option String := none
  tags : List Tag := []
deriving Repr, DecidableEq

/-- ACK condition attached to a resource status. -/
structure Condition where
  condType : String := ""
  condStatus : String := ""
  message : Option String := none
deriving Repr, DecidableEq

/-- `ACKResourceMetadata` of the resource status. -/
structure ResourceMetadata where
  arn : Option String := none
  ownerAccountID : Option String := none
  region : Option String := none
deriving Repr, DecidableEq

/-- `RepositoryStatus` of the custom resource.  `conditions` is `Option` so
that a Go `nil` slice is distinguishable from an empty one, which is what
`setStatusDefaults` checks. -/
structure RepositoryStatus where
  createdAt : Option Nat := none
  registryID : Option String := none
  repositoryURI : Option String := none
  ackResourceMetadata : Option ResourceMetadata := none
  conditions : Option (List Condition) := none
deriving Repr, DecidableEq

/-- The Kubernetes object `ko` (a `*svcapitypes.Repository`); the `resource`
wrapper of the Go code is identified with it. -/
structure Repository where
  spec : RepositorySpec := {}
  status : RepositoryStatus := {}
deriving Repr, DecidableEq

/-! ## SDK request payloads (aws-sdk-go ECR input structs) -/

/-- SDK-side image scanning configuration (v2 SDK: `ScanOnPush bool`,
a plain value, not a pointer). -/
structure SdkImageScanningConfiguration where
  scanOnPush : Bool := false
deriving Repr, DecidableEq

/-- Input of `PutImageScanningConfiguration`. -/
structure PutImageScanningConfigurationInput where
  repositoryName : Option String := none
  imageScanningConfiguration : Option SdkImageScanningConfiguration := none
deriving Repr, DecidableEq

/-- Input of `PutImageTagMutability` (the mutability enum is embedded as its
string value). -/
structure PutImageTagMutabilityInput where
  repositoryName : Option String := none
  imageTagMutability : String := ""
deriving Repr, DecidableEq

/-- Input of `PutLifecyclePolicy`. -/
structure PutLifecyclePolicyInput where
  repositoryName : Option String := none
  registryId : Option String := none
  lifecyclePolicyText : Option String := none
deriving Repr, DecidableEq

/-- Input of `DeleteLifecyclePolicy`. -/
structure DeleteLifecyclePolicyInput where
  repositoryName : Option String := none
  registryId : Option String := none
deriving Repr, DecidableEq

/-- Input of `SetRepositoryPolicy`. -/
structure SetRepositoryPolicyInput where
  repositoryName : Option String := none
  registryId : Option String := none
  policyText : Option String := none
deriving Repr, DecidableEq

/-- Input of `DeleteRepositoryPolicy`. -/
structure DeleteRepositoryPolicyInput where
  repositoryName : Option String := none
  registryId : Option String := none
deriving Repr, DecidableEq

/-- Input of `UntagResource` (`TagKeys` after `aws.ToStringSlice`). -/
structure UntagResourceInput where
  resourceArn : Option String := none
  tagKeys : List String := []
deriving Repr, DecidableEq

/-- Input of `TagResource`. -/
structure TagResourceInput where
  resourceArn : Option String := none
  tags : List Tag := []
deriving Repr, DecidableEq

/-- One remote mutating ECR call together with its request payload. -/
inductive ApiCall where
  | putImageScanningConfiguration (input : PutImageScanningConfigurationInput)
  | putImageTagMutability (input : PutImageTagMutabilityInput)
  | putLifecyclePolicy (input : PutLifecyclePolicyInput)
  | deleteLifecyclePolicy (input : DeleteLifecyclePolicyInput)
  | setRepositoryPolicy (input : SetRepositoryPolicyInput)
  | deleteRepositoryPolicy (input : DeleteRepositoryPolicyInput)
  | untagResource (input : UntagResourceInput)
  | tagResource (input : TagResourceInput)
deriving Repr, DecidableEq

/-- Errors are opaque strings at the mutating-call boundary. -/
abbrev Err := String

/-- The SDK client for mutating calls: `none` means the call succeeded,
`some e` that it returned error `e`. -/
abbrev ApiOracle := ApiCall → Option Err

/-- Issues one remote call against the oracle, mirroring the Go pattern
`_, err = rm.sdkapi.X(ctx, input); if err != nil { return nil, err };
return ret, nil`, and records the issued call. -/
def invoke (api : ApiOracle) (call : ApiCall) (ret : α) :
    List ApiCall × Except Err α :=
  match api call with
  | some e => ([call], Except.error e)
  | none => ([call], Except.ok ret)

/-! ## Call classification helpers -/

/-- The call is `PutLifecyclePolicy` or `DeleteLifecyclePolicy`. -/
def ApiCall.isLifecyclePolicyCall : ApiCall → Bool
  | .putLifecyclePolicy _ => true
  | .deleteLifecyclePolicy _ => true
  | _ => false

/-- The call is `SetRepositoryPolicy` or `DeleteRepositoryPolicy`. -/
def ApiCall.isRepositoryPolicyCall : ApiCall → Bool
  | .setRepositoryPolicy _ => true
  | .deleteRepositoryPolicy _ => true
  | _ => false

/-- The call is `UntagResource`. -/
def ApiCall.isUntagCall : ApiCall → Bool
  | .untagResource _ => true
  | _ => false

/-- The call is `TagResource`. -/
def ApiCall.isTagResourceCall : ApiCall → Bool
  | .tagResource _ => true
  | _ => false

/-- The call is a tag mutation (`UntagResource` or `TagResource`). -/
def ApiCall.isTagMutationCall : ApiCall → Bool
  | .untagResource _ => true
  | .tagResource _ => true
  | _ => false

/-- The call is `PutImageScanningConfiguration` or `PutImageTagMutability`. -/
def ApiCall.isImageConfigCall : ApiCall → Bool
  | .putImageScanningConfiguration _ => true
  | .putImageTagMutability _ => true
  | _ => false

/-! ## custom_update_api.go -/

/-- `defaultImageScanningConfig` from `custom_update_api.go`. -/
def defaultImageScanningConfig : SdkImageScanningConfiguration :=
  { scanOnPush := false }

/-- `defaultImageTagMutability` (`svcsdktypes.ImageTagMutabilityMutable`). -/
def defaultImageTagMutability : String := "MUTABLE"

/-- `updateImageScanningConfiguration`.  The Go code builds
`RepositoryName: aws.String(*dspec.Name)` (a nil `Name` would panic; embedded
as `getD ""`) and dereferences `ScanOnPush` the same way. -/
def updateImageScanningConfiguration (api : ApiOracle) (desired : Repository) :
    List ApiCall × Except Err Repository :=
  let dspec := desired.spec
  let input : PutImageScanningConfigurationInput :=
    { repositoryName := some (dspec.name.getD "")
      imageScanningConfiguration :=
        match dspec.imageScanningConfiguration with
        | none => some defaultImageScanningConfig
        | some c => some { scanOnPush := c.scanOnPush.getD false } }
  invoke api (ApiCall.putImageScanningConfiguration input) desired

/-- `updateImageTagMutability`. -/
def updateImageTagMutability (api : ApiOracle) (desired : Repository) :
    List ApiCall × Except Err Repository :=
  let dspec := desired.spec
  let input : PutImageTagMutabilityInput :=
    { repositoryName := some (dspec.name.getD "")
      imageTagMutability :=
        match dspec.imageTagMutability with
        | none => defaultImageTagMutability
        | some m => m }
  invoke api (ApiCall.putImageTagMutability input) desired

/-- `deleteLifecyclePolicy`. -/
def deleteLifecyclePolicy (api : ApiOracle) (desired : Repository) :
    List ApiCall × Except Err Repository :=
  let dspec := desired.spec
  let input : DeleteLifecyclePolicyInput :=
    { repositoryName := dspec.name
      registryId := dspec.registryID }
  invoke api (ApiCall.deleteLifecyclePolicy input) desired

/-- `updateLifecyclePolicy`: falls back to `deleteLifecyclePolicy` when the
desired lifecycle policy is nil or the empty string. -/
def updateLifecyclePolicy (api : ApiOracle) (desired : Repository) :
    List ApiCall × Except Err Repository :=
  let dspec := desired.spec
  if dspec.lifecyclePolicy = none ∨ dspec.lifecyclePolicy = some "" then
    deleteLifecyclePolicy api desired
  else
    let input : PutLifecyclePolicyInput :=
      { repositoryName := dspec.name
        registryId := dspec.registryID
        lifecyclePolicyText := dspec.lifecyclePolicy }
    invoke api (ApiCall.putLifecyclePolicy input) desired

/-- `deleteRepositoryPolicy`. -/
def deleteRepositoryPolicy (api : ApiOracle) (desired : Repository) :
    List ApiCall × Except Err Repository :=
  let dspec := desired.spec
  let input : DeleteRepositoryPolicyInput :=
    { repositoryName := dspec.name
      registryId := dspec.registryID }
  invoke api (ApiCall.deleteRepositoryPolicy input) desired

/-- `updateRepositoryPolicy`: falls back to `deleteRepositoryPolicy` when the
desired policy is nil or the empty string. -/
def updateRepositoryPolicy (api : ApiOracle) (desired : Repository) :
    List ApiCall × Except Err Repository :=
  let dspec := desired.spec
  if dspec.policy = none ∨ dspec.policy = some "" then
    deleteRepositoryPolicy api desired
  else
    let input : SetRepositoryPolicyInput :=
      { repositoryName := dspec.name
        registryId := dspec.registryID
        policyText := dspec.policy }
    invoke api (ApiCall.setRepositoryPolicy input) desired

/-! ## Tag delta (helpers referenced but not contained in the provided
source files) -/

/-- Modelled from the spec: blank-vs-nil equivalence for optional strings —
two values are treated as equal if both are absent/empty, or if one is absent
and the other is the empty string (`equalStrings` is referenced by the tag
delta computation but its definition is not among the provided source
files). -/
def equalStrings : Option String → Option String → Bool
  | none, none => true
  | none, some t => t == ""
  | some s, none => s == ""
  | some s, some t => s == t

/-- Helper for `computeTagsDelta`: walks the old tag list `a`, looking each
key up in the new list `b` by blank-vs-nil key equality; a key found with a
differing value contributes the new tag to `updated`, a key not found
contributes its key to `removed`; the input iteration order of each
partition is preserved. -/
def computeTagsDeltaAux (b : List Tag) : List Tag → List Tag × List (Option String)
  | [] => ([], [])
  | ae :: rest =>
    let result := computeTagsDeltaAux b rest
    match b.find? (fun be => equalStrings ae.key be.key) with
    | some be =>
      if equalStrings ae.value be.value then result
      else (be :: result.1, result.2)
    | none => (result.1, ae.key :: result.2)

/-- Modelled from the spec: `computeTagsDelta(a, b)` compares two keyed tag
collections (old `a`, new `b`) and produces the `(added, updated, removed)`
partitions — added: present in `b`, absent in `a`; updated: present in both
with a differing value (the new tag is reported); removed: present in `a`,
absent in `b`, carrying only the key.  Comparison is by key equality first,
then value equality, under blank-vs-nil equivalence (`computeTagsDelta` is
called by `syncRepositoryTags` but its definition is not among the provided
source files). -/
def computeTagsDelta (a b : List Tag) :
    List Tag × List Tag × List (Option String) :=
  let aux := computeTagsDeltaAux b a
  let added := b.filter (fun be => ! a.any (fun ae => equalStrings ae.key be.key))
  (added, aux.1, aux.2)

/-- Modelled from the spec: converts resource tags into SDK tag structures,
preserving each key and value (`sdkTagsFromResourceTags` is called by
`syncRepositoryTags` but its definition is not among the provided source
files); with the embedding's shared `Tag` type it is the identity. -/
def sdkTagsFromResourceTags (tags : List Tag) : List Tag := tags

/-- `syncRepositoryTags`: computes the tag delta between latest and desired,
issues at most one `UntagResource` call for the removed keys and at most one
`TagResource` call for the added and updated tags.  The ARN dereference
`latest.ko.Status.ACKResourceMetadata.ARN` is embedded via `getD {}`. -/
def syncRepositoryTags (api : ApiOracle) (latest desired : Repository) :
    List ApiCall × Except Err Unit :=
  let delta := computeTagsDelta latest.spec.tags desired.spec.tags
  let added := delta.1 ++ delta.2.1
  let removed := delta.2.2
  let arn := (latest.status.ackResourceMetadata.getD {}).arn
  let step1 : List ApiCall × Except Err Unit :=
    if removed.length > 0 then
      invoke api (ApiCall.untagResource
        { resourceArn := arn
          tagKeys := removed.map (fun k => k.getD "") }) ()
    else ([], Except.ok ())
  match step1 with
  | (c1, Except.error e) => (c1, Except.error e)
  | (c1, Except.ok _) =>
    let step2 : List ApiCall × Except Err Unit :=
      if added.length > 0 then
        invoke api (ApiCall.tagResource
          { resourceArn := arn
            tags := sdkTagsFromResourceTags added }) ()
      else ([], Except.ok ())
    match step2 with
    | (c2, r2) => (c1 ++ c2, r2)

/-- `delta.DifferentAt(path)`: the change set is embedded as the list of
differing attribute paths. -/
def differentAt (delta : List String) (path : String) : Bool :=
  delta.contains path

/-- `customUpdateRepository`: dispatches one update step per differing
attribute, in the fixed textual order scanning configuration, tag
mutability, lifecycle policy, repository policy, tags, returning on the
first error. -/
def customUpdateRepository (api : ApiOracle) (desired latest : Repository)
    (delta : List String) : List ApiCall × Except Err Repository :=
  let updated := desired
  let step1 := if differentAt delta "Spec.ImageScanningConfiguration" then
      updateImageScanningConfiguration api updated
    else ([], Except.ok updated)
  match step1 with
  | (c1, Except.error e) => (c1, Except.error e)
  | (c1, Except.ok u1) =>
    let step2 := if differentAt delta "Spec.ImageTagMutability" then
        updateImageTagMutability api u1
      else ([], Except.ok u1)
    match step2 with
    | (c2, Except.error e) => (c1 ++ c2, Except.error e)
    | (c2, Except.ok u2) =>
      let step3 := if differentAt delta "Spec.LifecyclePolicy" then
          updateLifecyclePolicy api u2
        else ([], Except.ok u2)
      match step3 with
      | (c3, Except.error e) => (c1 ++ c2 ++ c3, Except.error e)
      | (c3, Except.ok u3) =>
        let step4 := if differentAt delta "Spec.Policy" then
            updateRepositoryPolicy api u3
          else ([], Except.ok u3)
        match step4 with
        | (c4, Except.error e) => (c1 ++ c2 ++ c3 ++ c4, Except.error e)
        | (c4, Except.ok u4) =>
          let step5 := if differentAt delta "Spec.Tags" then
              syncRepositoryTags api latest desired
            else ([], Except.ok ())
          match step5 with
          | (c5, Except.error e) => (c1 ++ c2 ++ c3 ++ c4 ++ c5, Except.error e)
          | (c5, Except.ok _) => (c1 ++ c2 ++ c3 ++ c4 ++ c5, Except.ok u4)

/-! ## sdk.go: find, create, status defaults -/

/-- Errors at the read/describe boundary: AWS-classified errors with a code,
the distinguished `ackerr.NotFound` value, and opaque errors. -/
inductive GoError where
  | aws (code : String) (message : String)
  | notFound
  | plain (message : String)
deriving Repr, DecidableEq

/-- SDK-side encryption configuration as it appears in describe/create
responses. -/
structure SdkEncryptionConfiguration where
  encryptionType : Option String := none
  kmsKey : Option String := none
deriving Repr, DecidableEq

/-- SDK-side image scanning configuration in describe responses
(v1 SDK: `ScanOnPush *bool`). -/
structure SdkScanningConfiguration where
  scanOnPush : Option Bool := none
deriving Repr, DecidableEq

/-- One `Repository` element of a `DescribeRepositories` (or
`CreateRepository`) response; `CreatedAt` is embedded as a `Nat`
timestamp. -/
structure SdkRepository where
  createdAt : Option Nat := none
  encryptionConfiguration : Option SdkEncryptionConfiguration := none
  imageScanningConfiguration : Option SdkScanningConfiguration := none
  imageTagMutability : Option String := none
  registryId : Option String := none
  repositoryArn : Option String := none
  repositoryName : Option String := none
  repositoryUri : Option String := none
deriving Repr, DecidableEq

/-- Input of `DescribeRepositories`. -/
structure DescribeRepositoriesInput where
  registryId : Option String := none
deriving Repr, DecidableEq

/-- `newListRequestPayload`. -/
def newListRequestPayload (r : Repository) : DescribeRepositoriesInput :=
  match r.status.registryID with
  | some rid => { registryId := some rid }
  | none => {}

/-- `setStatusDefaults`: ensures `ACKResourceMetadata` is non-nil, defaults
`OwnerAccountID` to the manager's account id, and replaces a nil
`Conditions` slice with an empty one. -/
def setStatusDefaults (awsAccountID : String) (ko : Repository) : Repository :=
  let ko := if ko.status.ackResourceMetadata = none then
      { ko with status.ackResourceMetadata := some {} }
    else ko
  let ko := match ko.status.ackResourceMetadata with
    | some md =>
      if md.ownerAccountID = none then
        let md := { md with ownerAccountID := some awsAccountID }
        { ko with status.ackResourceMetadata := some md }
      else ko
    | none => ko
  if ko.status.conditions = (none : Option (List Condition)) then
    { ko with status.conditions := some [] }
  else ko

/-- The candidate-merging loop body of `sdkFind` from the `RepositoryUri`
field to `found = true; break`. -/
def sdkFindFinishElem (ko : Repository) (elem : SdkRepository) :
    Repository × Bool :=
  let ko := match elem.repositoryUri with
    | some uri => { ko with status.repositoryURI := some uri }
    | none => ko
  (ko, true)

/-- The first six field merges of the `sdkFind` candidate loop body
(`CreatedAt` through `RepositoryArn`), performed on the working copy
before the `RepositoryName` identity check. -/
def sdkFindMergePre (ko : Repository) (elem : SdkRepository) : Repository :=
  let ko := match elem.createdAt with
    | some t => { ko with status.createdAt := some t }
    | none => ko
  let ko := match elem.encryptionConfiguration with
    | some ec =>
      let f1 : EncryptionConfiguration :=
        { encryptionType := ec.encryptionType, kmsKey := ec.kmsKey }
      { ko with spec.encryptionConfiguration := some f1 }
    | none => ko
  let ko := match elem.imageScanningConfiguration with
    | some isc =>
      let f2 : ImageScanningConfiguration := { scanOnPush := isc.scanOnPush }
      { ko with spec.imageScanningConfiguration := some f2 }
    | none => ko
  let ko := match elem.imageTagMutability with
    | some m => { ko with spec.imageTagMutability := some m }
    | none => ko
  let ko := match elem.registryId with
    | some rid => { ko with status.registryID := some rid }
    | none => ko
  match elem.repositoryArn with
  | some arn =>
    let md := ko.status.ackResourceMetadata.getD {}
    { ko with status.ackResourceMetadata := some { md with arn := some arn } }
  | none => ko

/-- The candidate loop of `sdkFind`: merges each candidate's fields into the
working copy `ko` in the textual order of the Go code; when the candidate
carries a `RepositoryName` that differs from a non-nil
`ko.Spec.RepositoryName` the loop `continue`s to the next candidate — the
fields merged before that check are left in `ko`.  Returns the working copy
and the `found` flag. -/
def sdkFindLoop : Repository → List SdkRepository → Repository × Bool
  | ko, [] => (ko, false)
  | ko, elem :: rest =>
    let ko := sdkFindMergePre ko elem
    match elem.repositoryName with
    | some nm =>
      match ko.spec.repositoryName with
      | some base =>
        if nm ≠ base then sdkFindLoop ko rest
        else sdkFindFinishElem { ko with spec.repositoryName := some nm } elem
      | none => sdkFindFinishElem { ko with spec.repositoryName := some nm } elem
    | none => sdkFindFinishElem ko elem

/-- `sdkFind`: builds the list request, invokes `DescribeRepositories`
(embedded as the `describe` oracle), converts a
`RepositoryNotFoundException` into `ackerr.NotFound`, runs the candidate
loop over a copy of the supplied object, and returns `NotFound` when no
candidate is accepted; an accepted result passes through
`setStatusDefaults`. -/
def sdkFind (awsAccountID : String)
    (describe : DescribeRepositoriesInput → Except GoError (List SdkRepository))
    (r : Repository) : Except GoError Repository :=
  let input := newListRequestPayload r
  match describe input with
  | Except.error respErr =>
    match respErr with
    | GoError.aws code _ =>
      if code = "RepositoryNotFoundException" then Except.error GoError.notFound
      else Except.error respErr
    | _ => Except.error respErr
  | Except.ok repositories =>
    match sdkFindLoop r repositories with
    | (ko, true) => Except.ok (setStatusDefaults awsAccountID ko)
    | (_, false) => Except.error GoError.notFound

/-- SDK tag in a `CreateRepository` request. -/
structure SdkTag where
  key : Option String := none
  value : Option String := none
deriving Repr, DecidableEq

/-- Input of `CreateRepository`. -/
structure CreateRepositoryInput where
  encryptionConfiguration : Option SdkEncryptionConfiguration := none
  imageScanningConfiguration : Option SdkScanningConfiguration := none
  imageTagMutability : Option String := none
  repositoryName : Option String := none
  tags : Option (List SdkTag) := none
deriving Repr, DecidableEq

/-- `newCreateRequestPayload`. -/
def newCreateRequestPayload (r : Repository) : CreateRepositoryInput :=
  let res : CreateRepositoryInput := {}
  let res := match r.spec.encryptionConfiguration with
    | some ec =>
      let f0 : SdkEncryptionConfiguration :=
        { encryptionType := ec.encryptionType, kmsKey := ec.kmsKey }
      { res with encryptionConfiguration := some f0 }
    | none => res
  let res := match r.spec.imageScanningConfiguration with
    | some isc =>
      let f1 : SdkScanningConfiguration := { scanOnPush := isc.scanOnPush }
      { res with imageScanningConfiguration := some f1 }
    | none => res
  let res := match r.spec.imageTagMutability with
    | some m => { res with imageTagMutability := some m }
    | none => res
  let res := match r.spec.repositoryName with
    | some nm => { res with repositoryName := some nm }
    | none => res
  let f4 : List SdkTag := r.spec.tags.map (fun t => { key := t.key, value := t.value })
  { res with tags := some f4 }

/-- `sdkCreate`: builds the create request, invokes `CreateRepository`
(embedded as the `createApi` oracle), merges the response's status fields
into a copy of the supplied object and applies `setStatusDefaults`. -/
def sdkCreate (awsAccountID : String)
    (createApi : CreateRepositoryInput → Except GoError SdkRepository)
    (r : Repository) : Except GoError Repository :=
  let input := newCreateRequestPayload r
  match createApi input with
  | Except.error e => Except.error e
  | Except.ok repo =>
    let ko := r
    let ko := match repo.createdAt with
      | some t => { ko with status.createdAt := some t }
      | none => ko
    let ko := match repo.registryId with
      | some rid => { ko with status.registryID := some rid }
      | none => ko
    let ko := if ko.status.ackResourceMetadata = none then
        { ko with status.ackResourceMetadata := some {} }
      else ko
    let ko := match repo.repositoryArn with
      | some arn =>
        let md := ko.status.ackResourceMetadata.getD {}
        { ko with status.ackResourceMetadata := some { md with arn := some arn } }
      | none => ko
    let ko := match repo.repositoryUri with
      | some uri => { ko with status.repositoryURI := some uri }
      | none => ko
    Except.ok (setStatusDefaults awsAccountID ko)

/-! ## hook.go: setResourceAdditionalFields -/

/-- Input of `GetLifecyclePolicy`. -/
structure GetLifecyclePolicyInput where
  repositoryName : Option String := none
  registryId : Option String := none
deriving Repr, DecidableEq

/-- Output of `GetLifecyclePolicy` (only the field the hook reads). -/
structure GetLifecyclePolicyOutput where
  lifecyclePolicyText : Option String := none
deriving Repr, DecidableEq

/-- `svcsdk.ErrCodeLifecyclePolicyNotFoundException`. -/
def errCodeLifecyclePolicyNotFound : String := "LifecyclePolicyNotFoundException"

/-- `setResourceAdditionalFields`: reads the lifecycle policy; a
`LifecyclePolicyNotFoundException` clears `Spec.LifecyclePolicy` and is
swallowed; any other error is returned with the object untouched; a
successful read with non-nil text overwrites `Spec.LifecyclePolicy`.
Returns the (possibly mutated) object together with the returned error. -/
def setResourceAdditionalFields
    (getLifecyclePolicy : GetLifecyclePolicyInput → Except GoError GetLifecyclePolicyOutput)
    (ko : Repository) : Repository × Option GoError :=
  let input : GetLifecyclePolicyInput :=
    { repositoryName := ko.spec.name, registryId := ko.spec.registryID }
  match getLifecyclePolicy input with
  | Except.error err =>
    match err with
    | GoError.aws code _ =>
      if code = errCodeLifecyclePolicyNotFound then
        ({ ko with spec.lifecyclePolicy := none }, none)
      else (ko, some err)
    | _ => (ko, some err)
  | Except.ok resp =>
    match resp.lifecyclePolicyText with
    | some t => ({ ko with spec.lifecyclePolicy := some t }, none)
    | none => (ko, none)

/-! ## Create post-set-output hooks -/

/-- `sdk_create_post_set_output.go.tpl` (immediate-call variant): after the
create call, a non-empty desired policy is applied through
`updateRepositoryPolicy` and a non-empty lifecycle policy through
`updateLifecyclePolicy`; an error from either follow-up call is returned,
failing the create pass. -/
def sdkCreatePostSetOutput (api : ApiOracle) (desired ko : Repository) :
    List ApiCall × Except Err Repository :=
  let step1 := if ko.spec.policy ≠ none ∧ ko.spec.policy ≠ some "" then
      updateRepositoryPolicy api desired
    else ([], Except.ok desired)
  match step1 with
  | (c1, Except.error e) => (c1, Except.error e)
  | (c1, Except.ok _) =>
    let step2 := if ko.spec.lifecyclePolicy ≠ none ∧ ko.spec.lifecyclePolicy ≠ some "" then
        updateLifecyclePolicy api desired
      else ([], Except.ok desired)
    match step2 with
    | (c2, Except.error e) => (c1 ++ c2, Except.error e)
    | (c2, Except.ok _) => (c1 ++ c2, Except.ok ko)

/-- Modelled from the spec: `ackcondition.SetSynced` (ACK runtime, outside
the provided source files) sets the resource's `ACK.ResourceSynced`
condition to the given status and message, replacing any existing synced
condition. -/
def setSynced (ko : Repository) (condStatus : String) (message : Option String) :
    Repository :=
  let conds := (ko.status.conditions.getD []).filter
    (fun c => c.condType ≠ "ACK.ResourceSynced")
  let syncedCond : Condition :=
    { condType := "ACK.ResourceSynced", condStatus := condStatus, message := message }
  { ko with status.conditions := some (conds ++ [syncedCond]) }

/-- The requeue variant of the create post-set-output hook: no follow-up
call is issued; when the desired policy or lifecycle policy is non-empty
the resource is marked synced=false so a later reconcile pass applies them
through the update path. -/
def sdkCreatePostSetOutputRequeue (ko : Repository) : Repository :=
  if (ko.spec.policy ≠ none ∧ ko.spec.policy ≠ some "") ∨
     (ko.spec.lifecyclePolicy ≠ none ∧ ko.spec.lifecyclePolicy ≠ some "") then
    setSynced ko "False" (some "bucket created, requeue for updates")
  else ko

/-! ## Helper lemmas -/

theorem invoke_calls (api : ApiOracle) (call : ApiCall) (ret : α) :
    (invoke api call ret).1 = [call] := by
  unfold invoke; cases api call <;> rfl

theorem invoke_ok (api : ApiOracle) (call : ApiCall) (ret : α)
    (h : api call = none) : invoke api call ret = ([call], Except.ok ret) := by
  unfold invoke; rw [h]

theorem invoke_error (api : ApiOracle) (call : ApiCall) (ret : α) (e : Err)
    (h : api call = some e) : invoke api call ret = ([call], Except.error e) := by
  unfold invoke; rw [h]

/-- C3: For every desired snapshot, when the policy (respectively
lifecycle-policy) attribute differs, the update step issues a delete call
(`DeleteRepositoryPolicy` / `DeleteLifecyclePolicy`) if and only if the
desired value is nil or the empty string, and otherwise issues exactly one
set call (`SetRepositoryPolicy` / `PutLifecyclePolicy`) carrying the desired
policy text; a set call with empty text is never issued. -/
theorem updatePolicy_deleteOrSet (api : ApiOracle) (desired : Repository) :
    ((desired.spec.policy = none ∨ desired.spec.policy = some "") →
      (updateRepositoryPolicy api desired).1 =
        [ApiCall.deleteRepositoryPolicy
          { repositoryName := desired.spec.name, registryId := desired.spec.registryID }]) ∧
    (∀ p : String, desired.spec.policy = some p → p ≠ "" →
      (updateRepositoryPolicy api desired).1 =
        [ApiCall.setRepositoryPolicy
          { repositoryName := desired.spec.name, registryId := desired.spec.registryID,
            policyText := some p }]) ∧
    (∀ input, ApiCall.setRepositoryPolicy input ∈ (updateRepositoryPolicy api desired).1 →
      input.policyText ≠ none ∧ input.policyText ≠ some "") ∧
    ((desired.spec.lifecyclePolicy = none ∨ desired.spec.lifecyclePolicy = some "") →
      (updateLifecyclePolicy api desired).1 =
        [ApiCall.deleteLifecyclePolicy
          { repositoryName := desired.spec.name, registryId := desired.spec.registryID }]) ∧
    (∀ p : String, desired.spec.lifecyclePolicy = some p → p ≠ "" →
      (updateLifecyclePolicy api desired).1 =
        [ApiCall.putLifecyclePolicy
          { repositoryName := desired.spec.name, registryId := desired.spec.registryID,
            lifecyclePolicyText := some p }]) ∧
    (∀ input, ApiCall.putLifecyclePolicy input ∈ (updateLifecyclePolicy api desired).1 →
      input.lifecyclePolicyText ≠ none ∧ input.lifecyclePolicyText ≠ some "") := by
  refine ⟨?_, ?_, ?_, ?_, ?_, ?_⟩
  · intro h
    simp only [updateRepositoryPolicy, deleteRepositoryPolicy, if_pos h, invoke_calls]
  · intro p hp hne
    have h : ¬ ((some p : Option String) = none ∨ (some p : Option String) = some "") := by
      simp [hne]
    simp only [updateRepositoryPolicy, hp]
    rw [if_neg h, invoke_calls]
  · intro input hmem
    by_cases h : desired.spec.policy = none ∨ desired.spec.policy = some ""
    · simp only [updateRepositoryPolicy, deleteRepositoryPolicy, if_pos h,
        invoke_calls] at hmem
      simp at hmem
    · simp only [updateRepositoryPolicy, if_neg h, invoke_calls] at hmem
      simp only [List.mem_singleton, ApiCall.setRepositoryPolicy.injEq] at hmem
      subst hmem
      push_neg at h
      constructor
      · simpa using h.1
      · simpa using h.2
  · intro h
    simp only [updateLifecyclePolicy, deleteLifecyclePolicy, if_pos h, invoke_calls]
  · intro p hp hne
    have h : ¬ ((some p : Option String) = none ∨ (some p : Option String) = some "") := by
      simp [hne]
    simp only [updateLifecyclePolicy, hp]
    rw [if_neg h, invoke_calls]
  · intro input hmem
    by_cases h : desired.spec.lifecyclePolicy = none ∨ desired.spec.lifecyclePolicy = some ""
    · simp only [updateLifecyclePolicy, deleteLifecyclePolicy, if_pos h,
        invoke_calls] at hmem
      simp at hmem
    · simp only [updateLifecyclePolicy, if_neg h, invoke_calls] at hmem
      simp only [List.mem_singleton, ApiCall.putLifecyclePolicy.injEq] at hmem
      subst hmem
      push_neg at h
      constructor
      · simpa using h.1
      · simpa using h.2

/-- Witness for C3: at a desired snapshot with empty policy and a non-empty
lifecycle policy, the policy step issues the delete call and the lifecycle
step issues the put call with the desired text. -/
theorem updatePolicy_deleteOrSet_witness :
    (updateRepositoryPolicy (fun _ => none)
        { spec := { name := some "r", policy := some "" } }).1 =
      [ApiCall.deleteRepositoryPolicy { repositoryName := some "r" }] ∧
    (updateLifecyclePolicy (fun _ => none)
        { spec := { name := some "r", lifecyclePolicy := some "L" } }).1 =
      [ApiCall.putLifecyclePolicy { repositoryName := some "r", lifecyclePolicyText := some "L" }] := by
  refine ⟨?_, ?_⟩
  · exact (updatePolicy_deleteOrSet (fun _ => none)
      { spec := { name := some "r", policy := some "" } }).1 (Or.inr rfl)
  · exact (updatePolicy_deleteOrSet (fun _ => none)
      { spec := { name := some "r", lifecyclePolicy := some "L" } }).2.2.2.2.1
      "L" rfl (by decide)

/-- C6: When the image-scanning-configuration (respectively
image-tag-mutability) attribute differs and the desired value is nil, the
update step issues a set call carrying the default value (`ScanOnPush =
false`, respectively mutability `MUTABLE`) rather than a delete or a no-op;
when the desired value is non-nil, the set call carries exactly the desired
value. -/
theorem updateConfig_defaultOnNil (api : ApiOracle) (desired : Repository) :
    (desired.spec.imageScanningConfiguration = none →
      (updateImageScanningConfiguration api desired).1 =
        [ApiCall.putImageScanningConfiguration
          { repositoryName := some (desired.spec.name.getD "")
            imageScanningConfiguration := some { scanOnPush := false } }]) ∧
    (∀ b : Bool, desired.spec.imageScanningConfiguration = some { scanOnPush := some b } →
      (updateImageScanningConfiguration api desired).1 =
        [ApiCall.putImageScanningConfiguration
          { repositoryName := some (desired.spec.name.getD "")
            imageScanningConfiguration := some { scanOnPush := b } }]) ∧
    (desired.spec.imageTagMutability = none →
      (updateImageTagMutability api desired).1 =
        [ApiCall.putImageTagMutability
          { repositoryName := some (desired.spec.name.getD "")
            imageTagMutability := "MUTABLE" }]) ∧
    (∀ m : String, desired.spec.imageTagMutability = some m →
      (updateImageTagMutability api desired).1 =
        [ApiCall.putImageTagMutability
          { repositoryName := some (desired.spec.name.getD "")
            imageTagMutability := m }]) := by
  refine ⟨?_, ?_, ?_, ?_⟩
  · intro h
    simp only [updateImageScanningConfiguration, h, invoke_calls,
      defaultImageScanningConfig]
  · intro b hb
    simp only [updateImageScanningConfiguration, hb, invoke_calls, Option.getD_some]
  · intro h
    simp only [updateImageTagMutability, h, invoke_calls, defaultImageTagMutability]
  · intro m hm
    simp only [updateImageTagMutability, hm, invoke_calls]

/-- Witness for C6: a desired snapshot with nil scanning configuration gets
the default set call, and a desired mutability `IMMUTABLE` is carried
verbatim. -/
theorem updateConfig_defaultOnNil_witness :
    (updateImageScanningConfiguration (fun _ => none)
        { spec := { name := some "r" } }).1 =
      [ApiCall.putImageScanningConfiguration
        { repositoryName := some "r", imageScanningConfiguration := some { scanOnPush := false } }] ∧
    (updateImageTagMutability (fun _ => none)
        { spec := { name := some "r", imageTagMutability := some "IMMUTABLE" } }).1 =
      [ApiCall.putImageTagMutability
        { repositoryName := some "r", imageTagMutability := "IMMUTABLE" }] := by
  refine ⟨?_, ?_⟩
  · exact (updateConfig_defaultOnNil (fun _ => none)
      { spec := { name := some "r" } }).1 rfl
  · exact (updateConfig_defaultOnNil (fun _ => none)
      { spec := { name := some "r", imageTagMutability := some "IMMUTABLE" } }).2.2.2
      "IMMUTABLE" rfl

/-- C7: `setResourceAdditionalFields` returns no error and sets
`Spec.LifecyclePolicy` to nil when the lifecycle-policy read fails with
`LifecyclePolicyNotFoundException`; on a successful read with non-nil text
it overwrites `Spec.LifecyclePolicy` with that text; on any other read
error it returns the error and leaves the object (hence
`Spec.LifecyclePolicy`) unchanged. -/
theorem setResourceAdditionalFields_lifecycleRead
    (getLP : GetLifecyclePolicyInput → Except GoError GetLifecyclePolicyOutput)
    (ko : Repository) :
    (∀ msg, getLP { repositoryName := ko.spec.name, registryId := ko.spec.registryID } =
        Except.error (GoError.aws "LifecyclePolicyNotFoundException" msg) →
      setResourceAdditionalFields getLP ko =
        ({ ko with spec.lifecyclePolicy := none }, none)) ∧
    (∀ out t, getLP { repositoryName := ko.spec.name, registryId := ko.spec.registryID } =
        Except.ok out → out.lifecyclePolicyText = some t →
      setResourceAdditionalFields getLP ko =
        ({ ko with spec.lifecyclePolicy := some t }, none)) ∧
    (∀ e, getLP { repositoryName := ko.spec.name, registryId := ko.spec.registryID } =
        Except.error e →
      (∀ msg, e ≠ GoError.aws "LifecyclePolicyNotFoundException" msg) →
      setResourceAdditionalFields getLP ko = (ko, some e)) := by
  refine ⟨?_, ?_, ?_⟩
  · intro msg h
    simp [setResourceAdditionalFields, h, errCodeLifecyclePolicyNotFound]
  · intro out t hok ht
    simp only [setResourceAdditionalFields, hok, ht]
  · intro e he hne
    simp only [setResourceAdditionalFields, he]
    cases e with
    | aws code msg =>
      have : code ≠ errCodeLifecyclePolicyNotFound := by
        intro hc
        exact hne msg (by rw [hc]; rfl)
      simp [this]
    | notFound => rfl
    | plain m => rfl

/-- Witness for C7: a `LifecyclePolicyNotFoundException` read clears the
lifecycle policy and returns no error; a successful read overwrites it; a
plain error is propagated unchanged. -/
theorem setResourceAdditionalFields_lifecycleRead_witness :
    setResourceAdditionalFields
        (fun _ => Except.error (GoError.aws "LifecyclePolicyNotFoundException" "m"))
        { spec := { name := some "r", lifecyclePolicy := some "old" } } =
      ({ spec := { name := some "r", lifecyclePolicy := none } }, none) ∧
    setResourceAdditionalFields
        (fun _ => Except.ok { lifecyclePolicyText := some "new" })
        { spec := { name := some "r", lifecyclePolicy := some "old" } } =
      ({ spec := { name := some "r", lifecyclePolicy := some "new" } }, none) ∧
    setResourceAdditionalFields
        (fun _ => Except.error (GoError.plain "boom"))
        { spec := { name := some "r", lifecyclePolicy := some "old" } } =
      ({ spec := { name := some "r", lifecyclePolicy := some "old" } },
        some (GoError.plain "boom")) := by
  refine ⟨?_, ?_, ?_⟩
  · exact (setResourceAdditionalFields_lifecycleRead
      (fun _ => Except.error (GoError.aws "LifecyclePolicyNotFoundException" "m"))
      { spec := { name := some "r", lifecyclePolicy := some "old" } }).1 "m" rfl
  · exact (setResourceAdditionalFields_lifecycleRead
      (fun _ => Except.ok { lifecyclePolicyText := some "new" })
      { spec := { name := some "r", lifecyclePolicy := some "old" } }).2.1
      { lifecyclePolicyText := some "new" } "new" rfl rfl
  · exact (setResourceAdditionalFields_lifecycleRead
      (fun _ => Except.error (GoError.plain "boom"))
      { spec := { name := some "r", lifecyclePolicy := some "old" } }).2.2
      (GoError.plain "boom") rfl (fun msg h => by cases h)

/-! ## Tag delta lemmas -/

theorem equalStrings_refl (a : Option String) : equalStrings a a = true := by
  cases a <;> simp [equalStrings]

theorem equalStrings_symm (a b : Option String) :
    equalStrings a b = equalStrings b a := by
  cases a <;> cases b <;> simp [equalStrings, eq_comm]

theorem equalStrings_trans {a b c : Option String}
    (h1 : equalStrings a b = true) (h2 : equalStrings b c = true) :
    equalStrings a c = true := by
  cases a <;> cases b <;> cases c <;> simp_all [equalStrings]

theorem computeTagsDeltaAux_mem_updated {b a : List Tag} {t : Tag}
    (h : t ∈ (computeTagsDeltaAux b a).1) :
    ∃ ae ∈ a, b.find? (fun be => equalStrings ae.key be.key) = some t := by
  induction a with
  | nil => simp [computeTagsDeltaAux] at h
  | cons ae rest ih =>
    simp only [computeTagsDeltaAux] at h
    rcases hf : b.find? (fun be => equalStrings ae.key be.key) with _ | be
    · rw [hf] at h
      obtain ⟨x, hx, hfx⟩ := ih h
      exact ⟨x, List.mem_cons_of_mem _ hx, hfx⟩
    · rw [hf] at h
      dsimp only at h
      by_cases hv : equalStrings ae.value be.value = true
      · rw [if_pos hv] at h
        obtain ⟨x, hx, hfx⟩ := ih h
        exact ⟨x, List.mem_cons_of_mem _ hx, hfx⟩
      · rw [if_neg hv] at h
        rcases List.mem_cons.mp h with heq | hmem
        · exact ⟨ae, List.mem_cons_self _ _, heq ▸ hf⟩
        · obtain ⟨x, hx, hfx⟩ := ih hmem
          exact ⟨x, List.mem_cons_of_mem _ hx, hfx⟩

theorem computeTagsDeltaAux_mem_removed {b a : List Tag} {k : Option String}
    (h : k ∈ (computeTagsDeltaAux b a).2) :
    ∃ ae ∈ a, k = ae.key ∧
      b.find? (fun be => equalStrings ae.key be.key) = none := by
  induction a with
  | nil => simp [computeTagsDeltaAux] at h
  | cons ae rest ih =>
    simp only [computeTagsDeltaAux] at h
    rcases hf : b.find? (fun be => equalStrings ae.key be.key) with _ | be
    · rw [hf] at h
      rcases List.mem_cons.mp h with heq | hmem
      · exact ⟨ae, List.mem_cons_self _ _, heq, hf⟩
      · obtain ⟨x, hx, hkx, hfx⟩ := ih hmem
        exact ⟨x, List.mem_cons_of_mem _ hx, hkx, hfx⟩
    · rw [hf] at h
      dsimp only at h
      by_cases hv : equalStrings ae.value be.value = true
      · rw [if_pos hv] at h
        obtain ⟨x, hx, hkx, hfx⟩ := ih h
        exact ⟨x, List.mem_cons_of_mem _ hx, hkx, hfx⟩
      · rw [if_neg hv] at h
        obtain ⟨x, hx, hkx, hfx⟩ := ih h
        exact ⟨x, List.mem_cons_of_mem _ hx, hkx, hfx⟩

theorem computeTagsDelta_mem_added {a b : List Tag} {t : Tag}
    (h : t ∈ (computeTagsDelta a b).1) :
    t ∈ b ∧ ∀ ae ∈ a, equalStrings ae.key t.key = false := by
  simp only [computeTagsDelta, List.mem_filter] at h
  refine ⟨h.1, fun ae hae => ?_⟩
  have := h.2
  simp only [Bool.not_eq_true', List.any_eq_false] at this
  simpa using this ae hae

/-- When the keys of `a` are pairwise distinct (under blank-vs-nil
equivalence), looking any element of `a` up in `a` by key finds that very
element. -/
theorem find?_key_self {a : List Tag}
    (hu : List.Pairwise (fun s t => equalStrings s.key t.key = false) a)
    {ae : Tag} (hmem : ae ∈ a) :
    a.find? (fun be => equalStrings ae.key be.key) = some ae := by
  induction a with
  | nil => cases hmem
  | cons x rest ih =>
    rcases List.mem_cons.mp hmem with heq | hmem'
    · subst heq
      simp [List.find?, equalStrings_refl]
    · have hx : equalStrings x.key ae.key = false :=
        (List.pairwise_cons.mp hu).1 ae hmem'
      have hx' : equalStrings ae.key x.key = false := by
        rw [equalStrings_symm]; exact hx
      simp only [List.find?, hx']
      exact ih (List.pairwise_cons.mp hu).2 hmem'

theorem computeTagsDeltaAux_self {A : List Tag} {a : List Tag}
    (h : ∀ ae ∈ a, A.find? (fun be => equalStrings ae.key be.key) = some ae) :
    computeTagsDeltaAux A a = ([], []) := by
  induction a with
  | nil => rfl
  | cons ae rest ih =>
    have hf := h ae (List.mem_cons_self _ _)
    simp only [computeTagsDeltaAux, hf, equalStrings_refl, if_pos]
    exact ih (fun x hx => h x (List.mem_cons_of_mem _ hx))

/-- `computeTagsDelta` of a duplicate-free tag set with itself is empty in
all three partitions. -/
theorem computeTagsDelta_self {A : List Tag}
    (hu : List.Pairwise (fun s t => equalStrings s.key t.key = false) A) :
    computeTagsDelta A A = ([], [], []) := by
  have haux : computeTagsDeltaAux A A = ([], []) :=
    computeTagsDeltaAux_self (fun ae hae => find?_key_self hu hae)
  have hadd : A.filter (fun be => ! A.any (fun ae => equalStrings ae.key be.key)) = [] := by
    rw [List.filter_eq_nil_iff]
    intro be hbe
    simp only [Bool.not_eq_true', Bool.not_eq_false]
    exact List.any_eq_true.mpr ⟨be, hbe, equalStrings_refl _⟩
  simp [computeTagsDelta, haux, hadd]

/-- C9: For all tag sets A and B, the three partitions returned by the tag
delta computation (added, updated, removed) are pairwise disjoint by key,
and computing the delta of a (duplicate-free keyed) set with itself yields
three empty sequences; consequently `syncRepositoryTags` issues zero remote
calls when latest and desired carry equal tag sets. -/
theorem computeTagsDelta_partition (a b : List Tag) :
    (∀ t1 ∈ (computeTagsDelta a b).1, ∀ t2 ∈ (computeTagsDelta a b).2.1,
        equalStrings t1.key t2.key = false) ∧
    (∀ t1 ∈ (computeTagsDelta a b).1, ∀ k ∈ (computeTagsDelta a b).2.2,
        equalStrings t1.key k = false) ∧
    (∀ t2 ∈ (computeTagsDelta a b).2.1, ∀ k ∈ (computeTagsDelta a b).2.2,
        equalStrings t2.key k = false) ∧
    (List.Pairwise (fun s t => equalStrings s.key t.key = false) a →
        computeTagsDelta a a = ([], [], [])) ∧
    (∀ (api : ApiOracle) (latest desired : Repository),
        latest.spec.tags = desired.spec.tags →
        List.Pairwise (fun s t => equalStrings s.key t.key = false) desired.spec.tags →
        syncRepositoryTags api latest desired = ([], Except.ok ())) := by
  refine ⟨?_, ?_, ?_, fun hu => computeTagsDelta_self hu, ?_⟩
  · intro t1 h1 t2 h2
    obtain ⟨_, hnone⟩ := computeTagsDelta_mem_added h1
    obtain ⟨ae, hae, hf⟩ := computeTagsDeltaAux_mem_updated h2
    have hkey : equalStrings ae.key t2.key = true := by
      simpa using List.find?_some hf
    by_contra hcon
    rw [Bool.not_eq_false] at hcon
    have h12 : equalStrings t2.key t1.key = true := by
      rw [equalStrings_symm]; exact hcon
    have : equalStrings ae.key t1.key = true := equalStrings_trans hkey h12
    rw [hnone ae hae] at this
    cases this
  · intro t1 h1 k h2
    obtain ⟨hmem, _⟩ := computeTagsDelta_mem_added h1
    obtain ⟨ae, hae, hk, hf⟩ := computeTagsDeltaAux_mem_removed h2
    have hnone : ∀ be ∈ b, equalStrings ae.key be.key = false := by
      intro be hbe
      have := List.find?_eq_none.mp hf be hbe
      simpa using this
    by_contra hcon
    rw [Bool.not_eq_false] at hcon
    have : equalStrings ae.key t1.key = true := by
      subst hk
      rw [equalStrings_symm]; exact hcon
    rw [hnone t1 hmem] at this
    cases this
  · intro t2 h2 k hk
    obtain ⟨ae, hae, hf⟩ := computeTagsDeltaAux_mem_updated h2
    have hmem : t2 ∈ b := List.mem_of_find?_eq_some hf
    obtain ⟨ae', hae', hk', hf'⟩ := computeTagsDeltaAux_mem_removed hk
    have hnone : ∀ be ∈ b, equalStrings ae'.key be.key = false := by
      intro be hbe
      have := List.find?_eq_none.mp hf' be hbe
      simpa using this
    by_contra hcon
    rw [Bool.not_eq_false] at hcon
    have : equalStrings ae'.key t2.key = true := by
      subst hk'
      rw [equalStrings_symm]; exact hcon
    rw [hnone t2 hmem] at this
    cases this
  · intro api latest desired heq hu
    have hdelta : computeTagsDelta latest.spec.tags desired.spec.tags = ([], [], []) := by
      rw [heq]; exact computeTagsDelta_self hu
    simp [syncRepositoryTags, hdelta]

/-- Witness for C9: at two distinct keyed tags, the delta of the set with
itself is empty and `syncRepositoryTags` issues zero calls on equal tag
sets. -/
theorem computeTagsDelta_partition_witness :
    computeTagsDelta [⟨some "a", some "1"⟩, ⟨some "b", some "2"⟩]
        [⟨some "a", some "1"⟩, ⟨some "b", some "2"⟩] = ([], [], []) ∧
    syncRepositoryTags (fun _ => none)
        { spec := { tags := [⟨some "a", some "1"⟩] } }
        { spec := { tags := [⟨some "a", some "1"⟩] } } = ([], Except.ok ()) := by
  constructor
  · exact (computeTagsDelta_partition
      [⟨some "a", some "1"⟩, ⟨some "b", some "2"⟩]
      [⟨some "a", some "1"⟩, ⟨some "b", some "2"⟩]).2.2.2.1 (by decide)
  · exact (computeTagsDelta_partition [] []).2.2.2.2 (fun _ => none)
      { spec := { tags := [⟨some "a", some "1"⟩] } }
      { spec := { tags := [⟨some "a", some "1"⟩] } } rfl (by decide)

/-! ## Tag synchronization call shapes -/

/-- The single `UntagResource` call `syncRepositoryTags` may issue. -/
def untagCallOf (latest desired : Repository) : ApiCall :=
  ApiCall.untagResource
    { resourceArn := (latest.status.ackResourceMetadata.getD {}).arn
      tagKeys := (computeTagsDelta latest.spec.tags desired.spec.tags).2.2.map
        (fun k => k.getD "") }

/-- The single `TagResource` call `syncRepositoryTags` may issue. -/
def tagCallOf (latest desired : Repository) : ApiCall :=
  ApiCall.tagResource
    { resourceArn := (latest.status.ackResourceMetadata.getD {}).arn
      tags := sdkTagsFromResourceTags
        ((computeTagsDelta latest.spec.tags desired.spec.tags).1 ++
          (computeTagsDelta latest.spec.tags desired.spec.tags).2.1) }

theorem syncRepositoryTags_def (api : ApiOracle) (latest desired : Repository) :
    syncRepositoryTags api latest desired =
      (match (if (computeTagsDelta latest.spec.tags desired.spec.tags).2.2.length > 0 then
            invoke api (untagCallOf latest desired) ()
          else ([], Except.ok ())) with
       | (c1, Except.error e) => (c1, Except.error e)
       | (c1, Except.ok _) =>
         match (if ((computeTagsDelta latest.spec.tags desired.spec.tags).1 ++
              (computeTagsDelta latest.spec.tags desired.spec.tags).2.1).length > 0 then
              invoke api (tagCallOf latest desired) ()
            else ([], Except.ok ())) with
         | (c2, r2) => (c1 ++ c2, r2)) := rfl

theorem syncRepositoryTags_calls_shape (api : ApiOracle) (latest desired : Repository) :
    ∃ u t : Bool,
      (syncRepositoryTags api latest desired).1 =
        (if u then [untagCallOf latest desired] else []) ++
        (if t then [tagCallOf latest desired] else []) ∧
      (u = true ↔ (computeTagsDelta latest.spec.tags desired.spec.tags).2.2.length > 0) ∧
      (t = true → ((computeTagsDelta latest.spec.tags desired.spec.tags).1 ++
          (computeTagsDelta latest.spec.tags desired.spec.tags).2.1).length > 0) := by
  rw [syncRepositoryTags_def]
  dsimp only
  by_cases hr : (computeTagsDelta latest.spec.tags desired.spec.tags).2.2.length > 0
  · rw [if_pos hr]
    rcases hu : api (untagCallOf latest desired) with _ | e
    · rw [invoke_ok api _ _ hu]
      dsimp only
      by_cases ha : ((computeTagsDelta latest.spec.tags desired.spec.tags).1 ++
          (computeTagsDelta latest.spec.tags desired.spec.tags).2.1).length > 0
      · rw [if_pos ha]
        rcases ht : api (tagCallOf latest desired) with _ | e
        · rw [invoke_ok api _ _ ht]
          exact ⟨true, true, by simp, by simp [hr], fun _ => ha⟩
        · rw [invoke_error api _ _ e ht]
          exact ⟨true, true, by simp, by simp [hr], fun _ => ha⟩
      · rw [if_neg ha]
        exact ⟨true, false, by simp, by simp [hr], by simp⟩
    · rw [invoke_error api _ _ e hu]
      dsimp only
      exact ⟨true, false, by simp, by simp [hr], by simp⟩
  · rw [if_neg hr]
    dsimp only
    by_cases ha : ((computeTagsDelta latest.spec.tags desired.spec.tags).1 ++
        (computeTagsDelta latest.spec.tags desired.spec.tags).2.1).length > 0
    · rw [if_pos ha]
      rcases ht : api (tagCallOf latest desired) with _ | e
      · rw [invoke_ok api _ _ ht]
        exact ⟨false, true, by simp, by simp [hr], fun _ => ha⟩
      · rw [invoke_error api _ _ e ht]
        exact ⟨false, true, by simp, by simp [hr], fun _ => ha⟩
    · rw [if_neg ha]
      exact ⟨false, false, by simp, by simp [hr], by simp⟩

/-- C4: For every pair of latest and desired tag sets, `syncRepositoryTags`
issues at most one untag call, carrying exactly the removed keys, and skips
it when the removed partition is empty; and at most one tag call, carrying
exactly the union of the added and updated tags, and skips it when that
union is empty; in particular when desired has no tags and latest has tags
`{a:1, b:2}`, exactly one remove call with keys `[a, b]` and no add call is
issued. -/
theorem syncRepositoryTags_atMostOneEach (api : ApiOracle) (latest desired : Repository) :
    ((syncRepositoryTags api latest desired).1.countP (fun c => c.isUntagCall) ≤ 1) ∧
    ((syncRepositoryTags api latest desired).1.countP (fun c => c.isTagResourceCall) ≤ 1) ∧
    (∀ input, ApiCall.untagResource input ∈ (syncRepositoryTags api latest desired).1 →
      input.tagKeys = (computeTagsDelta latest.spec.tags desired.spec.tags).2.2.map
        (fun k => k.getD "")) ∧
    (∀ input, ApiCall.tagResource input ∈ (syncRepositoryTags api latest desired).1 →
      input.tags = sdkTagsFromResourceTags
        ((computeTagsDelta latest.spec.tags desired.spec.tags).1 ++
          (computeTagsDelta latest.spec.tags desired.spec.tags).2.1)) ∧
    ((computeTagsDelta latest.spec.tags desired.spec.tags).2.2 = [] →
      ∀ c ∈ (syncRepositoryTags api latest desired).1, c.isUntagCall = false) ∧
    ((computeTagsDelta latest.spec.tags desired.spec.tags).1 ++
        (computeTagsDelta latest.spec.tags desired.spec.tags).2.1 = [] →
      ∀ c ∈ (syncRepositoryTags api latest desired).1, c.isTagResourceCall = false) ∧
    syncRepositoryTags (fun _ => none)
        { spec := { tags := [⟨some "a", some "1"⟩, ⟨some "b", some "2"⟩] }
          status := { ackResourceMetadata := some { arn := some "arn:ex" } } }
        { spec := { tags := [] } } =
      ([ApiCall.untagResource { resourceArn := some "arn:ex", tagKeys := ["a", "b"] }],
        Except.ok ()) := by
  obtain ⟨u, t, hcalls, hu, ht⟩ := syncRepositoryTags_calls_shape api latest desired
  refine ⟨?_, ?_, ?_, ?_, ?_, ?_, by rfl⟩
  · rw [hcalls]
    rcases u <;> rcases t <;>
      simp [untagCallOf, tagCallOf, ApiCall.isUntagCall, List.countP_cons, List.countP_nil]
  · rw [hcalls]
    rcases u <;> rcases t <;>
      simp [untagCallOf, tagCallOf, ApiCall.isTagResourceCall, List.countP_cons, List.countP_nil]
  · intro input hmem
    rw [hcalls] at hmem
    rcases u <;> rcases t <;> simp [untagCallOf, tagCallOf] at hmem <;> simp [hmem]
  · intro input hmem
    rw [hcalls] at hmem
    rcases u <;> rcases t <;> simp [untagCallOf, tagCallOf] at hmem <;> simp [hmem]
  · intro hrem
    rw [hcalls]
    have hu' : u = false := by
      rcases u with _ | _
      · rfl
      · exact absurd (hu.mp rfl) (by simp [hrem])
    subst hu'
    rcases t <;> simp [untagCallOf, tagCallOf, ApiCall.isUntagCall]
  · intro hadd
    rw [hcalls]
    have ht' : t = false := by
      rcases t with _ | _
      · rfl
      · exact absurd (ht rfl) (by simp [hadd])
    subst ht'
    rcases u <;> simp [untagCallOf, tagCallOf, ApiCall.isTagResourceCall]

/-- Witness for C4: applying the theorem at the scenario input — the untag
call issued for latest tags `{a:1, b:2}` and empty desired tags carries
exactly the removed keys `["a", "b"]`. -/
theorem syncRepositoryTags_atMostOneEach_witness :
    ({ resourceArn := some "arn:ex", tagKeys := ["a", "b"] } : UntagResourceInput).tagKeys =
      (computeTagsDelta
        [(⟨some "a", some "1"⟩ : Tag), ⟨some "b", some "2"⟩] []).2.2.map
        (fun k => k.getD "") := by
  exact (syncRepositoryTags_atMostOneEach (fun _ => none)
    { spec := { tags := [⟨some "a", some "1"⟩, ⟨some "b", some "2"⟩] }
      status := { ackResourceMetadata := some { arn := some "arn:ex" } } }
    { spec := { tags := [] } }).2.2.1
    { resourceArn := some "arn:ex", tagKeys := ["a", "b"] } (by decide)

/-! ## Per-step call shapes for customUpdateRepository -/

/-- The `PutImageScanningConfiguration` call issued for a desired snapshot. -/
def scanCallOf (d : Repository) : ApiCall :=
  ApiCall.putImageScanningConfiguration
    { repositoryName := some (d.spec.name.getD "")
      imageScanningConfiguration :=
        match d.spec.imageScanningConfiguration with
        | none => some defaultImageScanningConfig
        | some c => some { scanOnPush := c.scanOnPush.getD false } }

/-- The `PutImageTagMutability` call issued for a desired snapshot. -/
def mutabilityCallOf (d : Repository) : ApiCall :=
  ApiCall.putImageTagMutability
    { repositoryName := some (d.spec.name.getD "")
      imageTagMutability :=
        match d.spec.imageTagMutability with
        | none => defaultImageTagMutability
        | some m => m }

/-- The lifecycle-policy call issued for a desired snapshot (put or
delete). -/
def lifecycleCallOf (d : Repository) : ApiCall :=
  if d.spec.lifecyclePolicy = none ∨ d.spec.lifecyclePolicy = some "" then
    ApiCall.deleteLifecyclePolicy
      { repositoryName := d.spec.name, registryId := d.spec.registryID }
  else
    ApiCall.putLifecyclePolicy
      { repositoryName := d.spec.name, registryId := d.spec.registryID
        lifecyclePolicyText := d.spec.lifecyclePolicy }

/-- The repository-policy call issued for a desired snapshot (set or
delete). -/
def policyCallOf (d : Repository) : ApiCall :=
  if d.spec.policy = none ∨ d.spec.policy = some "" then
    ApiCall.deleteRepositoryPolicy
      { repositoryName := d.spec.name, registryId := d.spec.registryID }
  else
    ApiCall.setRepositoryPolicy
      { repositoryName := d.spec.name, registryId := d.spec.registryID
        policyText := d.spec.policy }

theorem updateImageScanningConfiguration_eq (api : ApiOracle) (d : Repository) :
    updateImageScanningConfiguration api d = invoke api (scanCallOf d) d := rfl

theorem updateImageTagMutability_eq (api : ApiOracle) (d : Repository) :
    updateImageTagMutability api d = invoke api (mutabilityCallOf d) d := rfl

theorem updateLifecyclePolicy_eq (api : ApiOracle) (d : Repository) :
    updateLifecyclePolicy api d = invoke api (lifecycleCallOf d) d := by
  unfold updateLifecyclePolicy lifecycleCallOf deleteLifecyclePolicy
  by_cases h : d.spec.lifecyclePolicy = none ∨ d.spec.lifecyclePolicy = some "" <;>
    simp [h]

theorem updateRepositoryPolicy_eq (api : ApiOracle) (d : Repository) :
    updateRepositoryPolicy api d = invoke api (policyCallOf d) d := by
  unfold updateRepositoryPolicy policyCallOf deleteRepositoryPolicy
  by_cases h : d.spec.policy = none ∨ d.spec.policy = some "" <;>
    simp [h]

theorem lifecycleCallOf_isLifecycle (d : Repository) :
    (lifecycleCallOf d).isLifecyclePolicyCall = true := by
  unfold lifecycleCallOf
  split <;> rfl

theorem lifecycleCallOf_class (d : Repository) :
    (lifecycleCallOf d).isRepositoryPolicyCall = false ∧
    (lifecycleCallOf d).isTagMutationCall = false := by
  unfold lifecycleCallOf
  split <;> exact ⟨rfl, rfl⟩

theorem syncRepositoryTags_ok (api : ApiOracle) (latest desired : Repository)
    (hok : ∀ c, api c = none) :
    syncRepositoryTags api latest desired =
      ((syncRepositoryTags api latest desired).1, Except.ok ()) := by
  rw [syncRepositoryTags_def]
  by_cases hr : (computeTagsDelta latest.spec.tags desired.spec.tags).2.2.length > 0 <;>
    simp [hr, invoke_ok api _ _ (hok _)] <;>
      split <;> simp

/-- C1: In `customUpdateRepository`, if an earlier update step fails, no
later step is attempted in that pass: for every delta in which lifecycle
policy, access policy, and tags all differ, if the lifecycle-policy update
call returns an error (and the earlier configuration steps do not), then no
set/delete-policy call and no tag call is issued, and the error is returned
to the caller. -/
theorem customUpdateRepository_failFast (api : ApiOracle) (desired latest : Repository)
    (delta : List String) (e : Err)
    (hLC : differentAt delta "Spec.LifecyclePolicy" = true)
    (hPol : differentAt delta "Spec.Policy" = true)
    (hTags : differentAt delta "Spec.Tags" = true)
    (hok : ∀ c, c.isImageConfigCall = true → api c = none)
    (hfail : ∀ c, c.isLifecyclePolicyCall = true → api c = some e) :
    (customUpdateRepository api desired latest delta).2 = Except.error e ∧
    ∀ c ∈ (customUpdateRepository api desired latest delta).1,
      c.isRepositoryPolicyCall = false ∧ c.isTagMutationCall = false := by
  have e1 : updateImageScanningConfiguration api desired =
      ([scanCallOf desired], Except.ok desired) := by
    rw [updateImageScanningConfiguration_eq]
    exact invoke_ok api _ _ (hok _ rfl)
  have e2 : updateImageTagMutability api desired =
      ([mutabilityCallOf desired], Except.ok desired) := by
    rw [updateImageTagMutability_eq]
    exact invoke_ok api _ _ (hok _ rfl)
  have e3 : updateLifecyclePolicy api desired =
      ([lifecycleCallOf desired], Except.error e) := by
    rw [updateLifecyclePolicy_eq]
    exact invoke_error api _ _ e (hfail _ (lifecycleCallOf_isLifecycle desired))
  have hresult : customUpdateRepository api desired latest delta =
      ((if differentAt delta "Spec.ImageScanningConfiguration" then
          [scanCallOf desired] else []) ++
        (if differentAt delta "Spec.ImageTagMutability" then
          [mutabilityCallOf desired] else []) ++
        [lifecycleCallOf desired], Except.error e) := by
    by_cases h1 : differentAt delta "Spec.ImageScanningConfiguration" = true <;>
      by_cases h2 : differentAt delta "Spec.ImageTagMutability" = true <;>
        simp [customUpdateRepository, h1, h2, hLC, e1, e2, e3]
  rw [hresult]
  refine ⟨rfl, ?_⟩
  intro c hc
  simp only [List.mem_append, List.mem_singleton] at hc
  rcases hc with (hc | hc) | hc
  · rcases List.mem_ite_nil_right.mp hc with ⟨_, hc⟩
    rw [List.mem_singleton] at hc
    subst hc
    exact ⟨rfl, rfl⟩
  · rcases List.mem_ite_nil_right.mp hc with ⟨_, hc⟩
    rw [List.mem_singleton] at hc
    subst hc
    exact ⟨rfl, rfl⟩
  · subst hc
    exact lifecycleCallOf_class desired

/-- Witness for C1: at a delta differing in lifecycle policy, policy and
tags, with an oracle failing every lifecycle-policy call, the update
returns the error and issues only the lifecycle-policy call. -/
theorem customUpdateRepository_failFast_witness :
    (customUpdateRepository
        (fun c => if c.isLifecyclePolicyCall then some "boom" else none)
        { spec := { name := some "r", lifecyclePolicy := some "L", policy := some "P" } }
        { spec := {} }
        ["Spec.LifecyclePolicy", "Spec.Policy", "Spec.Tags"]).2 =
      Except.error "boom" := by
  exact (customUpdateRepository_failFast
    (fun c => if c.isLifecyclePolicyCall then some "boom" else none)
    { spec := { name := some "r", lifecyclePolicy := some "L", policy := some "P" } }
    { spec := {} }
    ["Spec.LifecyclePolicy", "Spec.Policy", "Spec.Tags"] "boom"
    rfl rfl rfl
    (fun c hc => by cases c <;> simp_all [ApiCall.isImageConfigCall, ApiCall.isLifecyclePolicyCall])
    (fun c hc => by simp [hc])).1

/-- C5: For every change set, `customUpdateRepository` issues the remote
mutating calls in the fixed order (1) image-scanning configuration, (2)
image-tag mutability, (3) lifecycle policy, (4) repository policy, (5) tag
synchronization, issuing exactly one step per differing attribute, and this
order does not depend on the iteration order of the change set (two change
sets that agree as sets of differing paths produce identical behavior). -/
theorem customUpdateRepository_fixedOrder (api apiOk : ApiOracle)
    (desired latest : Repository) (delta delta1 delta2 : List String)
    (hok : ∀ c, apiOk c = none)
    (hmem : ∀ p, differentAt delta1 p = differentAt delta2 p) :
    ((customUpdateRepository apiOk desired latest delta).1 =
      (if differentAt delta "Spec.ImageScanningConfiguration" then
        [scanCallOf desired] else []) ++
      (if differentAt delta "Spec.ImageTagMutability" then
        [mutabilityCallOf desired] else []) ++
      (if differentAt delta "Spec.LifecyclePolicy" then
        [lifecycleCallOf desired] else []) ++
      (if differentAt delta "Spec.Policy" then
        [policyCallOf desired] else []) ++
      (if differentAt delta "Spec.Tags" then
        (syncRepositoryTags apiOk latest desired).1 else [])) ∧
    customUpdateRepository api desired latest delta1 =
      customUpdateRepository api desired latest delta2 := by
  constructor
  · have e1 : updateImageScanningConfiguration apiOk desired =
        ([scanCallOf desired], Except.ok desired) := by
      rw [updateImageScanningConfiguration_eq]
      exact invoke_ok apiOk _ _ (hok _)
    have e2 : updateImageTagMutability apiOk desired =
        ([mutabilityCallOf desired], Except.ok desired) := by
      rw [updateImageTagMutability_eq]
      exact invoke_ok apiOk _ _ (hok _)
    have e3 : updateLifecyclePolicy apiOk desired =
        ([lifecycleCallOf desired], Except.ok desired) := by
      rw [updateLifecyclePolicy_eq]
      exact invoke_ok apiOk _ _ (hok _)
    have e4 : updateRepositoryPolicy apiOk desired =
        ([policyCallOf desired], Except.ok desired) := by
      rw [updateRepositoryPolicy_eq]
      exact invoke_ok apiOk _ _ (hok _)
    obtain ⟨c5, e5⟩ : ∃ c5, syncRepositoryTags apiOk latest desired = (c5, Except.ok ()) :=
      ⟨(syncRepositoryTags apiOk latest desired).1,
        syncRepositoryTags_ok apiOk latest desired hok⟩
    by_cases h1 : differentAt delta "Spec.ImageScanningConfiguration" = true <;>
      by_cases h2 : differentAt delta "Spec.ImageTagMutability" = true <;>
        by_cases h3 : differentAt delta "Spec.LifecyclePolicy" = true <;>
          by_cases h4 : differentAt delta "Spec.Policy" = true <;>
            by_cases h5 : differentAt delta "Spec.Tags" = true <;>
              rw [customUpdateRepository] <;>
                simp [h1, h2, h3, h4, h5, e1, e2, e3, e4, e5]
  · simp only [customUpdateRepository, hmem]

/-- Witness for C5: a change set listing policy before tags and its
permutation produce the same behavior, and on an all-success oracle the
issued calls follow the canonical order. -/
theorem customUpdateRepository_fixedOrder_witness :
    (customUpdateRepository (fun _ => none)
        { spec := { name := some "r", policy := some "P" } }
        { spec := {} }
        ["Spec.Policy", "Spec.Tags"]).1 =
      [] ++ [] ++ [] ++
        [policyCallOf { spec := { name := some "r", policy := some "P" } }] ++
        (syncRepositoryTags (fun _ => none) { spec := {} }
          { spec := { name := some "r", policy := some "P" } }).1 ∧
    customUpdateRepository (fun _ => none)
        { spec := { name := some "r", policy := some "P" } }
        { spec := {} } ["Spec.Policy", "Spec.Tags"] =
      customUpdateRepository (fun _ => none)
        { spec := { name := some "r", policy := some "P" } }
        { spec := {} } ["Spec.Tags", "Spec.Policy"] := by
  have h := customUpdateRepository_fixedOrder (fun _ => none) (fun _ => none)
    { spec := { name := some "r", policy := some "P" } } { spec := {} }
    ["Spec.Policy", "Spec.Tags"] ["Spec.Policy", "Spec.Tags"]
    ["Spec.Tags", "Spec.Policy"] (fun _ => rfl)
    (fun p => by
      simp only [differentAt, List.contains, List.elem]
      cases hp : p == "Spec.Policy" <;> cases ht : p == "Spec.Tags" <;>
        simp [hp, ht])
  refine ⟨?_, h.2⟩
  have h1 := h.1
  simpa using h1

/-! ## sdkFind identity filtering -/

theorem sdkFindMergePre_name (ko : Repository) (elem : SdkRepository) :
    (sdkFindMergePre ko elem).spec.repositoryName = ko.spec.repositoryName := by
  rcases elem with ⟨ca, ec, isc, itm, rid, arn, rn, uri⟩
  unfold sdkFindMergePre
  cases ca <;> cases ec <;> cases isc <;> cases itm <;> cases rid <;> cases arn <;> rfl

theorem sdkFindFinishElem_name (ko : Repository) (elem : SdkRepository) :
    ((sdkFindFinishElem ko elem).1).spec.repositoryName = ko.spec.repositoryName := by
  unfold sdkFindFinishElem
  cases elem.repositoryUri <;> rfl

theorem sdkFindLoop_name_preserved {n : String} :
    ∀ (cs : List SdkRepository) (ko : Repository),
      ko.spec.repositoryName = some n →
      ((sdkFindLoop ko cs).1).spec.repositoryName = some n := by
  intro cs
  induction cs with
  | nil => intro ko h; exact h
  | cons elem rest ih =>
    intro ko h
    have hpre : (sdkFindMergePre ko elem).spec.repositoryName = some n := by
      rw [sdkFindMergePre_name]; exact h
    unfold sdkFindLoop
    dsimp only
    rcases hrn : elem.repositoryName with _ | nm
    · rw [sdkFindFinishElem_name]
      exact hpre
    · rw [hpre]
      dsimp only
      by_cases hne : nm ≠ n
      · rw [if_pos hne]
        exact ih _ hpre
      · rw [if_neg hne]
        rw [sdkFindFinishElem_name]
        push_neg at hne
        subst hne
        rfl

theorem sdkFindLoop_none_match {n : String} :
    ∀ (cs : List SdkRepository) (ko : Repository),
      ko.spec.repositoryName = some n →
      (∀ elem ∈ cs, ∃ m, elem.repositoryName = some m ∧ m ≠ n) →
      (sdkFindLoop ko cs).2 = false ∧
      ((sdkFindLoop ko cs).1).spec.repositoryName = some n := by
  intro cs
  induction cs with
  | nil => intro ko h _; exact ⟨rfl, h⟩
  | cons elem rest ih =>
    intro ko h hall
    obtain ⟨m, hm, hmn⟩ := hall elem (List.mem_cons_self _ _)
    have hpre : (sdkFindMergePre ko elem).spec.repositoryName = some n := by
      rw [sdkFindMergePre_name]; exact h
    unfold sdkFindLoop
    dsimp only
    rw [hm, hpre]
    dsimp only
    rw [if_pos hmn]
    exact ih _ hpre (fun x hx => hall x (List.mem_cons_of_mem _ hx))

theorem setStatusDefaults_spec (a : String) (ko : Repository) :
    (setStatusDefaults a ko).spec = ko.spec := by
  unfold setStatusDefaults
  by_cases h1 : ko.status.ackResourceMetadata = none <;>
    simp only [h1, if_true, if_false, reduceIte] <;>
      split <;> (try split) <;> (try split) <;> rfl

/-- A describe response with two candidates: a non-matching `repo1` carrying
registry id `111`, then a matching `repo2` carrying no registry id. -/
def exDescribeTwo : DescribeRepositoriesInput → Except GoError (List SdkRepository) :=
  fun _ => Except.ok
    [{ repositoryName := some "repo1", registryId := some "111" },
     { repositoryName := some "repo2" }]

/-- A base snapshot already named `repo2`. -/
def exBaseRepo : Repository := { spec := { repositoryName := some "repo2" } }

/-- The snapshot `sdkFind` returns for `exDescribeTwo` over `exBaseRepo`:
named `repo2`, but carrying registry id `111` merged from the non-matching
first candidate. -/
def exFoundRepo : Repository :=
  { spec := { repositoryName := some "repo2" }
    status := { registryID := some "111"
                ackResourceMetadata := some { ownerAccountID := some "acct" }
                conditions := some [] } }

/-- Counterexample to C2 as stated: with a base snapshot named `repo2` and
candidates `repo1` (carrying registry id `111`) before `repo2` (carrying no
registry id), `sdkFind` returns the `repo2` snapshot, but the non-matching
candidate `repo1` contributed its registry id to the result — a field of a
non-matching candidate appears in the returned snapshot, which itself
carries no registry id in either the base snapshot or the matching
candidate. -/
theorem sdkFind_nonMatching_leak_cex :
    (sdkFind "acct" exDescribeTwo exBaseRepo).map
      (fun ko => ko.status.registryID) = Except.ok (some "111") ∧
    (sdkFind "acct" exDescribeTwo exBaseRepo).map
      (fun ko => ko.spec.repositoryName) = Except.ok (some "repo2") ∧
    exBaseRepo.status.registryID = none ∧
    ∀ elem ∈ [({ repositoryName := some "repo2" } : SdkRepository)],
      elem.registryId = none := ⟨rfl, rfl, rfl, by decide⟩

/-- C2 (amended): for every describe response and base snapshot whose
`RepositoryName` is non-nil, any snapshot returned by `sdkFind` carries
exactly the base snapshot's `RepositoryName` — a differently-named candidate
is never adopted as the result's identity (though fields it merged before
the identity check may persist in the working copy) — and when every
candidate carries a name different from the base's, `sdkFind` returns
`NotFound`. -/
theorem sdkFind_identity_filtering (awsAccountID : String)
    (describe : DescribeRepositoriesInput → Except GoError (List SdkRepository))
    (r : Repository) (n : String) (hn : r.spec.repositoryName = some n) :
    (∀ ko, sdkFind awsAccountID describe r = Except.ok ko →
      ko.spec.repositoryName = some n) ∧
    (∀ cs, describe (newListRequestPayload r) = Except.ok cs →
      (∀ elem ∈ cs, ∃ m, elem.repositoryName = some m ∧ m ≠ n) →
      sdkFind awsAccountID describe r = Except.error GoError.notFound) := by
  constructor
  · intro ko h
    unfold sdkFind at h
    dsimp only at h
    rcases hd : describe (newListRequestPayload r) with e | cs
    · rw [hd] at h
      dsimp only at h
      rcases e with ⟨code, msg⟩ | _ | msg
      · dsimp only at h
        by_cases hc : code = "RepositoryNotFoundException"
        · rw [if_pos hc] at h; cases h
        · rw [if_neg hc] at h; cases h
      · dsimp only at h; cases h
      · dsimp only at h; cases h
    · rw [hd] at h
      dsimp only at h
      rcases hl : sdkFindLoop r cs with ⟨ko', found⟩
      rw [hl] at h
      rcases found
      · cases h
      · dsimp only at h
        cases h
        rw [setStatusDefaults_spec]
        have := sdkFindLoop_name_preserved cs r hn
        rw [hl] at this
        exact this
  · intro cs hd hall
    unfold sdkFind
    dsimp only
    rw [hd]
    dsimp only
    obtain ⟨hfound, _⟩ := sdkFindLoop_none_match cs r hn hall
    rcases hl : sdkFindLoop r cs with ⟨ko', found⟩
    rw [hl] at hfound
    subst hfound
    rfl

/-- Witness for C2 (amended): at the counterexample's concrete input the
returned snapshot keeps the base name `repo2`, and a response whose only
candidate is named `repo1` yields `NotFound`. -/
theorem sdkFind_identity_filtering_witness :
    ((sdkFind "acct" exDescribeTwo exBaseRepo).map
      (fun ko => ko.spec.repositoryName) = Except.ok (some "repo2")) ∧
    sdkFind "acct"
        (fun _ => Except.ok [({ repositoryName := some "repo1" } : SdkRepository)])
        exBaseRepo =
      Except.error GoError.notFound := by
  constructor
  · have hres : sdkFind "acct" exDescribeTwo exBaseRepo = Except.ok exFoundRepo := rfl
    have h := (sdkFind_identity_filtering "acct" exDescribeTwo exBaseRepo
      "repo2" rfl).1 exFoundRepo hres
    rw [hres]
    simp only [Except.map]
    rw [h]
  · exact (sdkFind_identity_filtering "acct"
      (fun _ => Except.ok [({ repositoryName := some "repo1" } : SdkRepository)])
      exBaseRepo "repo2" rfl).2
      [{ repositoryName := some "repo1" }] rfl
      (fun elem helem => by
        rw [List.mem_singleton] at helem
        subst helem
        exact ⟨"repo1", rfl, by decide⟩)

/-! ## Status defaults invariant -/

/-- The status-defaults invariant: `ACKResourceMetadata` non-nil, its
`OwnerAccountID` non-nil, and `Conditions` a non-nil list. -/
def statusDefaultsOk (ko : Repository) : Bool :=
  ko.status.ackResourceMetadata.isSome &&
  (ko.status.ackResourceMetadata.getD {}).ownerAccountID.isSome &&
  ko.status.conditions.isSome

theorem setStatusDefaults_invariant (a : String) (ko : Repository) :
    statusDefaultsOk (setStatusDefaults a ko) = true := by
  unfold setStatusDefaults statusDefaultsOk
  by_cases h1 : ko.status.ackResourceMetadata = none
  · by_cases h3 : ko.status.conditions = (none : Option (List Condition)) <;>
      simp [h1, h3, Option.isSome_iff_ne_none]
  · rcases hmd : ko.status.ackResourceMetadata with _ | md
    · exact absurd hmd h1
    · by_cases h2 : md.ownerAccountID = none <;>
        by_cases h3 : ko.status.conditions = (none : Option (List Condition)) <;>
          simp [h1, hmd, h2, h3, Option.isSome_iff_ne_none]

/-- C10: Every snapshot returned successfully by `sdkFind` or `sdkCreate`
satisfies the status-defaults invariant: `Status.ACKResourceMetadata` is
non-nil, its `OwnerAccountID` is non-nil (defaulted to the manager's account
id when absent), and `Status.Conditions` is a non-nil list. -/
theorem statusDefaults_invariant (awsAccountID : String)
    (describe : DescribeRepositoriesInput → Except GoError (List SdkRepository))
    (createApi : CreateRepositoryInput → Except GoError SdkRepository)
    (r : Repository) :
    (∀ ko, sdkFind awsAccountID describe r = Except.ok ko →
      statusDefaultsOk ko = true) ∧
    (∀ ko, sdkCreate awsAccountID createApi r = Except.ok ko →
      statusDefaultsOk ko = true) := by
  constructor
  · intro ko h
    unfold sdkFind at h
    dsimp only at h
    rcases hd : describe (newListRequestPayload r) with e | cs
    · rw [hd] at h
      dsimp only at h
      rcases e with ⟨code, msg⟩ | _ | msg
      · dsimp only at h
        by_cases hc : code = "RepositoryNotFoundException"
        · rw [if_pos hc] at h; cases h
        · rw [if_neg hc] at h; cases h
      · dsimp only at h; cases h
      · dsimp only at h; cases h
    · rw [hd] at h
      dsimp only at h
      rcases hl : sdkFindLoop r cs with ⟨ko', found⟩
      rw [hl] at h
      rcases found
      · cases h
      · dsimp only at h
        cases h
        exact setStatusDefaults_invariant _ _
  · intro ko h
    unfold sdkCreate at h
    dsimp only at h
    rcases hc : createApi (newCreateRequestPayload r) with e | repo
    · rw [hc] at h
      cases h
    · rw [hc] at h
      dsimp only at h
      cases h
      exact setStatusDefaults_invariant _ _

/-- Witness for C10: the concrete snapshot `sdkFind` returns for
`exDescribeTwo` satisfies the invariant, as does a snapshot returned by
`sdkCreate` for a minimal create response. -/
theorem statusDefaults_invariant_witness :
    statusDefaultsOk exFoundRepo = true ∧
    statusDefaultsOk
      { spec := { repositoryName := some "repo2" }
        status := { ackResourceMetadata := some { arn := some "arn:new"
                                                  ownerAccountID := some "acct" }
                    conditions := some [] } } = true := by
  constructor
  · exact (statusDefaults_invariant "acct" exDescribeTwo
      (fun _ => Except.error GoError.notFound) exBaseRepo).1 exFoundRepo rfl
  · exact (statusDefaults_invariant "acct" exDescribeTwo
      (fun _ => Except.ok { repositoryArn := some "arn:new" }) exBaseRepo).2
      _ rfl

/-! ## Create post-set-output hook behavior -/

theorem policyCallOf_isPolicy (d : Repository) :
    (policyCallOf d).isRepositoryPolicyCall = true := by
  unfold policyCallOf
  split <;> rfl

/-- Counterexample to C8 as stated: in the immediate-call hook variant, with
a desired policy `"P"` and an oracle failing the set-policy call, the hook
returns the error — the creation pass fails and no synced=false condition is
set; and the requeue hook variant issues no follow-up convergence call at
all, only marking the resource synced=false. -/
theorem sdkCreatePostSetOutput_failPropagates_cex :
    sdkCreatePostSetOutput
        (fun c => if c.isRepositoryPolicyCall then some "boom" else none)
        { spec := { name := some "r", policy := some "P" } }
        { spec := { name := some "r", policy := some "P" } } =
      ([ApiCall.setRepositoryPolicy
          { repositoryName := some "r", policyText := some "P" }],
        Except.error "boom") ∧
    sdkCreatePostSetOutputRequeue { spec := { name := some "r", policy := some "P" } } =
      setSynced { spec := { name := some "r", policy := some "P" } } "False"
        (some "bucket created, requeue for updates") := ⟨rfl, rfl⟩

/-- C8 (amended): two create-hook variants exist and neither matches the
claim as stated.  The immediate-call variant applies a non-empty policy as
a follow-up `SetRepositoryPolicy` call right after creation, but a failure
of that call is propagated as an error, failing the create pass, with no
synced=false marking; on an all-success oracle it issues the policy and
lifecycle-policy follow-up calls.  The requeue variant issues no follow-up
call during create: when the desired policy or lifecycle policy is
non-empty it only marks the resource synced=false so a later pass applies
them through the normal update path, and otherwise leaves the resource
untouched. -/
theorem createPostSetOutput_variants (api : ApiOracle) (desired ko : Repository) :
    (∀ e, ko.spec.policy ≠ none → ko.spec.policy ≠ some "" →
      (∀ c, c.isRepositoryPolicyCall = true → api c = some e) →
      sdkCreatePostSetOutput api desired ko =
        ([policyCallOf desired], Except.error e)) ∧
    ((ko.spec.policy ≠ none ∧ ko.spec.policy ≠ some "") ∨
        (ko.spec.lifecyclePolicy ≠ none ∧ ko.spec.lifecyclePolicy ≠ some "") →
      sdkCreatePostSetOutputRequeue ko =
        setSynced ko "False" (some "bucket created, requeue for updates")) ∧
    (¬ ((ko.spec.policy ≠ none ∧ ko.spec.policy ≠ some "") ∨
        (ko.spec.lifecyclePolicy ≠ none ∧ ko.spec.lifecyclePolicy ≠ some "")) →
      sdkCreatePostSetOutputRequeue ko = ko) ∧
    ((∀ c, api c = none) →
      (sdkCreatePostSetOutput api desired ko).1 =
        (if ko.spec.policy ≠ none ∧ ko.spec.policy ≠ some "" then
          [policyCallOf desired] else []) ++
        (if ko.spec.lifecyclePolicy ≠ none ∧ ko.spec.lifecyclePolicy ≠ some "" then
          [lifecycleCallOf desired] else [])) := by
  refine ⟨?_, ?_, ?_, ?_⟩
  · intro e h1 h2 hfail
    have hp : updateRepositoryPolicy api desired =
        ([policyCallOf desired], Except.error e) := by
      rw [updateRepositoryPolicy_eq]
      exact invoke_error api _ _ e (hfail _ (policyCallOf_isPolicy desired))
    simp [sdkCreatePostSetOutput, h1, h2, hp]
  · intro h
    unfold sdkCreatePostSetOutputRequeue
    rw [if_pos h]
  · intro h
    unfold sdkCreatePostSetOutputRequeue
    rw [if_neg h]
  · intro hok
    have hp : updateRepositoryPolicy api desired =
        ([policyCallOf desired], Except.ok desired) := by
      rw [updateRepositoryPolicy_eq]
      exact invoke_ok api _ _ (hok _)
    have hl : updateLifecyclePolicy api desired =
        ([lifecycleCallOf desired], Except.ok desired) := by
      rw [updateLifecyclePolicy_eq]
      exact invoke_ok api _ _ (hok _)
    by_cases h1 : ko.spec.policy ≠ none ∧ ko.spec.policy ≠ some "" <;>
      by_cases h2 : ko.spec.lifecyclePolicy ≠ none ∧ ko.spec.lifecyclePolicy ≠ some "" <;>
        simp [sdkCreatePostSetOutput, h1, h2, hp, hl]

/-- Witness for C8 (amended): at the counterexample input, the immediate
variant propagates the failure of the policy follow-up call, and the
requeue variant marks the resource synced=false. -/
theorem createPostSetOutput_variants_witness :
    sdkCreatePostSetOutput
        (fun c => if c.isRepositoryPolicyCall then some "boom" else none)
        { spec := { name := some "r", policy := some "P" } }
        { spec := { name := some "r", policy := some "P" } } =
      ([policyCallOf { spec := { name := some "r", policy := some "P" } }],
        Except.error "boom") ∧
    sdkCreatePostSetOutputRequeue { spec := { name := some "r", policy := some "P" } } =
      setSynced { spec := { name := some "r", policy := some "P" } } "False"
        (some "bucket created, requeue for updates") := by
  constructor
  · exact (createPostSetOutput_variants
      (fun c => if c.isRepositoryPolicyCall then some "boom" else none)
      { spec := { name := some "r", policy := some "P" } }
      { spec := { name := some "r", policy := some "P" } }).1 "boom"
      (by decide) (by decide) (fun c hc => by simp [hc])
  · exact (createPostSetOutput_variants (fun _ => none)
      { spec := { name := some "r", policy := some "P" } }
      { spec := { name := some "r", policy := some "P" } }).2.1
      (Or.inl ⟨by decide, by decide⟩)

end Ecr
